import Mathlib

set_option maxRecDepth 100000

/-!
Verification development for the gridgame client subsystem: cell detection
(`Grid.detectCell` over turf's ray-casting point-in-polygon), the dwell
state machine (`App.onPositionUpdate` / `App.onDwellComplete`), the visit
commit protocol, and the pause/resume lifecycle (`App.onPauseGame` /
`App.onResumeFromPause`), together with the GPS watch wrapper (`GPS.start`
/ `GPS.stop`).

Modelling conventions:
- geographic coordinates and GPS accuracy are JS numbers; they are
  modelled exactly over `ℚ`;
- wall-clock instants (`new Date()`) and `setTimeout` delays are modelled
  as natural numbers of milliseconds;
- the single-threaded JS event loop is modelled by a deterministic step
  function over an explicit system state; async suspension points
  (`setTimeout` callbacks, awaited `fetch` completions, geolocation
  callbacks) are modelled as events delivered to the step function;
- `setTimeout` / `setInterval` ids are positive (as in browsers), so the
  JS truthiness tests `if (this.state.dwellTimer)` are modelled by
  matching on the `Option` holding the id.
-/

/-- A GeoJSON grid-cell feature as consumed by `Grid.detectCell`: the
`properties.cell_id` string and the polygon geometry's coordinate rings
(outer ring first, then holes); each vertex is a `(lon, lat)` pair. -/
structure Feature where
  cell_id : String
  rings : List (List (ℚ × ℚ))
deriving DecidableEq

/-- A GeoJSON FeatureCollection of grid cells (`geojson.features`). -/
structure FeatureCollection where
  features : List Feature
deriving DecidableEq

/-- Strip the closing vertex of a ring when it repeats the first vertex,
as turf's `inRing` does before iterating the edges. -/
def stripClose (r : List (ℚ × ℚ)) : List (ℚ × ℚ) :=
  match r.head?, r.getLast? with
  | some a, some b => if a = b then r.dropLast else r
  | _, _ => r

/-- The edge list visited by turf's `inRing` loop
`for (i = 0, j = ring.length - 1; i < ring.length; j = i++)`:
the pairs `(ring[i], ring[j])` with `j` one position behind `i`,
wrapping around. -/
def ringEdges (r : List (ℚ × ℚ)) : List ((ℚ × ℚ) × (ℚ × ℚ)) :=
  match r.getLast? with
  | none => []
  | some last => r.zip (last :: r.dropLast)

/-- The body of turf's `inRing` loop: for each edge, first the collinear
on-boundary test (early return of `!ignoreBoundary`), then the ray-cast
crossing test toggling `isInside`. -/
def inRingLoop (px py : ℚ) (ignoreBoundary : Bool) :
    List ((ℚ × ℚ) × (ℚ × ℚ)) → Bool → Bool
  | [], isInside => isInside
  | (⟨xi, yi⟩, ⟨xj, yj⟩) :: rest, isInside =>
    if py * (xi - xj) + yi * (xj - px) + yj * (px - xi) = 0 ∧
        (xi - px) * (xj - px) ≤ 0 ∧ (yi - py) * (yj - py) ≤ 0 then
      !ignoreBoundary
    else
      inRingLoop px py ignoreBoundary rest
        (if (decide (py < yi) != decide (py < yj)) &&
            decide (px < ((xj - xi) * (py - yi)) / (yj - yi) + xi) then
          !isInside
        else isInside)

/-- Turf's `inRing(pt, ring, ignoreBoundary)`. -/
def inRing (px py : ℚ) (ring : List (ℚ × ℚ)) (ignoreBoundary : Bool) : Bool :=
  inRingLoop px py ignoreBoundary (ringEdges (stripClose ring)) false

/-- Turf's `booleanPointInPolygon(pt, feature)` for a `Polygon` geometry
with the default `ignoreBoundary = false`: inside the outer ring and in
none of the holes (holes are tested with `!ignoreBoundary`). The point is
a `(lon, lat)` pair, as built by `turf.point([lon, lat])`. -/
def booleanPointInPolygon (pt : ℚ × ℚ) (f : Feature) : Bool :=
  match f.rings with
  | [] => false
  | outer :: holes =>
    inRing pt.1 pt.2 outer false && !(holes.any fun h => inRing pt.1 pt.2 h true)

/-- The `for (const feature of geojson.features)` loop of
`Grid.detectCell`: return the first feature containing the point. -/
def detectCellLoop (pt : ℚ × ℚ) : List Feature → Option String
  | [] => none
  | f :: rest =>
    if booleanPointInPolygon pt f then some f.cell_id else detectCellLoop pt rest

/-- `Grid.detectCell(lat, lon, geojson)`: linear first-match scan of the
grid's features with `turf.booleanPointInPolygon(turf.point([lon, lat]), feature)`,
returning the matching `cell_id` or `null`. -/
def detectCell (lat lon : ℚ) (g : FeatureCollection) : Option String :=
  detectCellLoop (lon, lat) g.features

/-- A client-side visit record, the values of `App.state.visitedCells`. -/
structure VisitRecord where
  visitCount : Nat
  dwellS : Nat
deriving DecidableEq

/-- A pending `setTimeout` armed by `App.onPositionUpdate`: its id, and
the arguments `(newCellId, enteredAt, lat, lon)` captured by the closure
`() => this.onDwellComplete(newCellId, enteredAt, lat, lon)`, plus the
instant `firesAt = armTime + minDwellS * 1000` at which the runtime may
fire it. -/
structure PendingTimer where
  id : Nat
  cellId : String
  enteredAt : Nat
  lat : ℚ
  lon : ℚ
  firesAt : Nat
deriving DecidableEq

/-- An outstanding `API.recordVisit` request: the body
`{cell_id, entered_at, exited_at, lat, lon}` plus a request id
identifying the awaited round trip. -/
structure PendingRequest where
  id : Nat
  cell_id : String
  entered_at : Nat
  exited_at : Nat
  lat : ℚ
  lon : ℚ
deriving DecidableEq

/-- The server's response to a visit commit:
`{visit_count, visited_count, score_pct}`. -/
structure VisitResponse where
  visit_count : Nat
  visited_count : Nat
  score_pct : ℚ
deriving DecidableEq

/-- Association-list lookup for `App.state.visitedCells[cellId]`. -/
def lookupVC : List (String × VisitRecord) → String → Option VisitRecord
  | [], _ => none
  | (k, v) :: rest, c => if k = c then some v else lookupVC rest c

/-- Association-list update for `App.state.visitedCells[cellId] = rec`. -/
def setVC : List (String × VisitRecord) → String → VisitRecord → List (String × VisitRecord)
  | [], c, v => [(c, v)]
  | (k, w) :: rest, c, v => if k = c then (c, v) :: rest else (k, w) :: setVC rest c v

/-- Number.prototype.toFixed(1) on a nonnegative rational, modelled as
rounding to one decimal place (half away from zero); the JS float
representation step is not modelled. -/
def jsToFixed1 (q : ℚ) : ℚ := (Rat.floor (q * 10 + 1 / 2) : ℚ) / 10

/-- The fields of `App.state` (and the HUD texts they drive) touched by
the game loop: grid and session constants, `visitedCells`,
`currentCellId`, `cellEnteredAt`, the `dwellTimer` / `countdownInterval`
handles, the `#cell-status` line, and the score HUD texts written by
`updateScoreDisplay` and `onPauseGame`. -/
structure AppState where
  grid : FeatureCollection
  minDwellS : Nat
  totalCells : Nat
  visitedCells : List (String × VisitRecord)
  currentCellId : Option String
  cellEnteredAt : Option Nat
  dwellTimer : Option Nat
  countdownInterval : Option Nat
  cellStatus : String
  visitedShown : Nat
  totalShown : Nat
  scorePctShown : ℚ
  pauseVisitedShown : Nat
  pausePctShown : ℚ
deriving DecidableEq

/-- The whole client system: `App.state`, the runtime's pending-timeout
queue, the outstanding and all-ever-submitted `recordVisit` requests, the
geolocation watch flag (`GPS.watchId !== null`), fresh-id counters, and
the last position drawn by `GameMap.updatePosition(lat, lon)`. -/
structure Sys where
  app : AppState
  timers : List PendingTimer
  inflight : List PendingRequest
  submitted : List PendingRequest
  watchActive : Bool
  nextTimerId : Nat
  nextReqId : Nat
  nextIntervalId : Nat
  lastPos : Option (ℚ × ℚ)
deriving DecidableEq

/-- The asynchronous events driving the client: a geolocation sample
(`watchPosition` success callback, carrying `(lat, lon, accuracy)`), a
`setTimeout` firing, the completion of an awaited `recordVisit` round
trip (success or failure), a geolocation error callback, and the
pause/resume buttons. -/
inductive Ev where
  | pos (t : Nat) (lat lon accuracy : ℚ)
  | fire (tid : Nat) (t : Nat)
  | netOk (rid : Nat) (resp : VisitResponse)
  | netErr (rid : Nat) (msg : String)
  | gpsError (msg : String)
  | pause
  | resume
deriving DecidableEq

/-- The guarded `clearTimeout(this.state.dwellTimer); this.state.dwellTimer = null;`
block: remove the referenced timeout from the runtime queue and drop the
handle. -/
def clearDwellTimer (s : Sys) : Sys :=
  match s.app.dwellTimer with
  | some tid =>
    { s with timers := s.timers.filter fun q => q.id != tid,
             app := { s.app with dwellTimer := none } }
  | none => s

/-- `App.onPositionUpdate(lat, lon, accuracy)` (only delivered while the
geolocation watch is active): draw the position, detect the cell, return
early on no cell change; otherwise cancel the pending dwell timer and
countdown, record the new cell and entry time, update the status line,
and when inside a cell arm a fresh `minDwellS * 1000` ms dwell timer
closing over `(newCellId, enteredAt, lat, lon)`. -/
def stepPos (s : Sys) (t : Nat) (lat lon accuracy : ℚ) : Sys :=
  if s.watchActive = false then s
  else
    let s1 := { s with lastPos := some (lat, lon) }
    let newCellId := detectCell lat lon s1.app.grid
    if newCellId = s1.app.currentCellId then s1
    else
      let s2 := clearDwellTimer s1
      let s3 := { s2 with app := { s2.app with countdownInterval := none } }
      let s4 := { s3 with app := { s3.app with currentCellId := newCellId,
                                               cellEnteredAt := some t } }
      match newCellId with
      | some c =>
        let s5 :=
          if (lookupVC s4.app.visitedCells c).isSome then
            { s4 with
              app := { s4.app with
                       cellStatus := "In cell " ++ c ++ " (already visited)" } }
          else
            { s4 with
              app := { s4.app with
                       cellStatus := "In cell — " ++ toString s4.app.minDwellS ++ "s...",
                       countdownInterval := some s4.nextIntervalId },
              nextIntervalId := s4.nextIntervalId + 1 }
        { s5 with
          timers := s5.timers ++
            [⟨s5.nextTimerId, c, t, lat, lon, t + s5.app.minDwellS * 1000⟩],
          app := { s5.app with dwellTimer := some s5.nextTimerId },
          nextTimerId := s5.nextTimerId + 1 }
      | none =>
        { s4 with app := { s4.app with cellStatus := "Outside grid area" } }

/-- A `setTimeout` firing at instant `t`: if the timeout `tid` is still
pending the runtime dequeues it and runs
`onDwellComplete(cellId, enteredAt, lat, lon)`, which nulls the handle
and submits `API.recordVisit` with
`{cell_id, entered_at, exited_at: now, lat, lon}`; a cancelled or unknown
id does nothing. -/
def stepFire (s : Sys) (tid : Nat) (t : Nat) : Sys :=
  match s.timers.find? (fun q => q.id == tid) with
  | none => s
  | some pt =>
    { s with
      timers := s.timers.filter fun q => q.id != tid,
      app := { s.app with dwellTimer := none },
      inflight := s.inflight ++
        [⟨s.nextReqId, pt.cellId, pt.enteredAt, t, pt.lat, pt.lon⟩],
      submitted := s.submitted ++
        [⟨s.nextReqId, pt.cellId, pt.enteredAt, t, pt.lat, pt.lon⟩],
      nextReqId := s.nextReqId + 1 }

/-- Successful completion of an awaited `recordVisit` call: the success
branch of `onDwellComplete` stores
`{visitCount: result.visit_count, dwellS: minDwellS}` in
`visitedCells[cellId]`, calls
`updateScoreDisplay(result.visited_count, result.score_pct)`, and writes
the status line. -/
def stepNetOk (s : Sys) (rid : Nat) (resp : VisitResponse) : Sys :=
  match s.inflight.find? (fun r => r.id == rid) with
  | none => s
  | some req =>
    { s with
      inflight := s.inflight.filter fun r => r.id != rid,
      app := { s.app with
        visitedCells := setVC s.app.visitedCells req.cell_id
          ⟨resp.visit_count, s.app.minDwellS⟩,
        visitedShown := resp.visited_count,
        totalShown := s.app.totalCells,
        scorePctShown := resp.score_pct,
        cellStatus := "Visited " ++ req.cell_id ++ "!" } }

/-- Failed completion of an awaited `recordVisit` call: the catch branch
of `onDwellComplete` only writes the status line. -/
def stepNetErr (s : Sys) (rid : Nat) (msg : String) : Sys :=
  match s.inflight.find? (fun r => r.id == rid) with
  | none => s
  | some _ =>
    { s with
      inflight := s.inflight.filter fun r => r.id != rid,
      app := { s.app with cellStatus := "Visit error: " ++ msg } }

/-- The geolocation error callback installed by `GPS.start` (only
delivered while the watch is active): the app's handler writes
`GPS error: ...` to the status line and nothing else. -/
def stepGpsError (s : Sys) (msg : String) : Sys :=
  if s.watchActive then
    { s with app := { s.app with cellStatus := "GPS error: " ++ msg } }
  else s

/-- `App.onPauseGame()`: `GPS.stop()`, cancel the pending dwell timer and
countdown, null `currentCellId`, and show the locally computed pause
score. -/
def stepPause (s : Sys) : Sys :=
  let s1 := clearDwellTimer { s with watchActive := false }
  let visited := s1.app.visitedCells.length
  { s1 with app := { s1.app with
      countdownInterval := none,
      currentCellId := none,
      pauseVisitedShown := visited,
      pausePctShown :=
        if s1.app.totalCells ≠ 0 then
          jsToFixed1 ((visited : ℚ) / (s1.app.totalCells : ℚ) * 100)
        else 0 } }

/-- `App.onResumeFromPause()`: clear the status line and restart the
geolocation watch. -/
def stepResume (s : Sys) : Sys :=
  { s with app := { s.app with cellStatus := "" }, watchActive := true }

/-- One event-loop turn of the client. -/
def step (s : Sys) : Ev → Sys
  | .pos t lat lon acc => stepPos s t lat lon acc
  | .fire tid t => stepFire s tid t
  | .netOk rid resp => stepNetOk s rid resp
  | .netErr rid msg => stepNetErr s rid msg
  | .gpsError msg => stepGpsError s msg
  | .pause => stepPause s
  | .resume => stepResume s

/-- Run a sequence of events from a state. -/
def run (s : Sys) : List Ev → Sys
  | [] => s
  | e :: es => run (step s e) es

/-- Timing side condition imposed by the JS runtime on a single event: a
`setTimeout` callback never runs before its delay has elapsed. -/
def timeOkB (s : Sys) : Ev → Bool
  | .fire tid t => s.timers.all fun pt => pt.id != tid || decide (pt.firesAt ≤ t)
  | _ => true

/-- A run is valid when every event respects the runtime's timing side
condition in the state where it is delivered. -/
def validRun (s : Sys) : List Ev → Bool
  | [] => true
  | e :: es => timeOkB s e && validRun (step s e) es

/-- The session fields of the `createGame` / `getGameWithGrid` response
that `App._startGame` consumes. -/
structure GameResult where
  grid : FeatureCollection
  total_cells : Nat
  min_dwell_s : Nat
deriving DecidableEq

/-- One element of the prior-visits array used when resuming a game. -/
structure PriorVisit where
  cell_id : String
  visit_count : Nat
  dwell_s : Nat
deriving DecidableEq

/-- `App._startGame(result, visits)` restricted to the modelled state:
install the grid and session constants, rehydrate `visitedCells`,
initialise the score HUD (`updateScoreDisplay()` with locally computed
defaults), and start the geolocation watch. -/
def startGame (result : GameResult) (visits : List PriorVisit) : Sys :=
  let vcs := visits.foldl
    (fun acc v => setVC acc v.cell_id ⟨v.visit_count, v.dwell_s⟩) []
  { app := { grid := result.grid,
             minDwellS := result.min_dwell_s,
             totalCells := result.total_cells,
             visitedCells := vcs,
             currentCellId := none,
             cellEnteredAt := none,
             dwellTimer := none,
             countdownInterval := none,
             cellStatus := "",
             visitedShown := vcs.length,
             totalShown := result.total_cells,
             scorePctShown :=
               if result.total_cells ≠ 0 then
                 jsToFixed1 ((vcs.length : ℚ) / (result.total_cells : ℚ) * 100)
               else 0,
             pauseVisitedShown := 0,
             pausePctShown := 0 },
    timers := [], inflight := [], submitted := [],
    watchActive := true,
    nextTimerId := 1, nextReqId := 1, nextIntervalId := 1,
    lastPos := none }

/-- The timer queue left behind by the guarded
`clearTimeout(this.state.dwellTimer)` block. -/
def cdtTimers (s : Sys) : List PendingTimer :=
  match s.app.dwellTimer with
  | some tid => s.timers.filter fun q => q.id != tid
  | none => s.timers

/-- Invariant tying `App.state.dwellTimer` to the runtime's timeout
queue: either no dwell timeout is pending, or exactly one is, it is the
one the handle references, it belongs to the currently tracked cell, it
was armed for the full `minDwellS * 1000` delay, the geolocation watch
was active when it was armed (and has not been stopped since), and its id
is stale-free. -/
def TimerInv (s : Sys) : Prop :=
  (s.timers = [] ∧ s.app.dwellTimer = none) ∨
  (∃ pt, s.timers = [pt] ∧ s.app.dwellTimer = some pt.id ∧
    s.app.currentCellId = some pt.cellId ∧
    pt.firesAt = pt.enteredAt + s.app.minDwellS * 1000 ∧
    s.watchActive = true ∧ pt.id < s.nextTimerId)

/-- An event keeps a dwell candidate for cell `c` alive only if, when it
is a position sample, the sample still detects cell `c`. -/
def KeepsCell (g : FeatureCollection) (c : String) : Ev → Prop
  | .pos _ la lo _ => detectCell la lo g = some c
  | _ => True

/-- Replace the accuracy argument of position samples by `0`; two event
sequences are "identical up to reported GPS accuracy" when their scrubbed
forms agree. -/
def scrubAccuracy : Ev → Ev
  | .pos t la lo _ => .pos t la lo 0
  | e => e

/-- The dwell-confirmation soundness property: every request ever
submitted by a run of the session was produced by a cell-entry sample
(detecting its cell, with the sample's coordinates and time) followed,
with no intervening different-cell or outside sample and no intervening
pause, by a timer firing no earlier than the full dwell window after
entry. -/
def UninterruptedDwell (result : GameResult) (visits : List PriorVisit)
    (es : List Ev) (req : PendingRequest) : Prop :=
  ∃ es1 ac es2 tid es3,
    es = es1 ++ Ev.pos req.entered_at req.lat req.lon ac ::
      (es2 ++ Ev.fire tid req.exited_at :: es3) ∧
    detectCell req.lat req.lon result.grid = some req.cell_id ∧
    (run (startGame result visits) es1).app.currentCellId ≠ some req.cell_id ∧
    req.entered_at + result.min_dwell_s * 1000 ≤ req.exited_at ∧
    ∀ e ∈ es2, KeepsCell result.grid req.cell_id e ∧ e ≠ Ev.pause

/-- Unit square grid cell `a`: ring over `[0,1] x [0,1]` in `(lon, lat)`. -/
def featA : Feature := ⟨"a", [[(0, 0), (1, 0), (1, 1), (0, 1), (0, 0)]]⟩

/-- Adjacent unit square grid cell `b` over `[1,2] x [0,1]`. -/
def featB : Feature := ⟨"b", [[(1, 0), (2, 0), (2, 1), (1, 1), (1, 0)]]⟩

/-- A two-cell non-overlapping witness grid. -/
def gridW : FeatureCollection := ⟨[featA, featB]⟩

/-- A witness session over `gridW` with `min_dwell_s = 1`. -/
def resW : GameResult := ⟨gridW, 2, 1⟩

/-- The same witness session but with `min_dwell_s = 20`. -/
def resW20 : GameResult := ⟨gridW, 2, 20⟩

/-- The witness session's start state. -/
def s0W : Sys := startGame resW []

/-- A witness run: enter cell `a`, then the dwell timer fires on time. -/
def esC2W : List Ev := [Ev.pos 0 (1/2) (1/2) 0, Ev.fire 1 1000]

/-- The commit request produced by `esC2W`. -/
def reqC2W : PendingRequest := ⟨1, "a", 0, 1000, 1/2, 1/2⟩

/-- Witness state: inside cell `a` with a pending dwell timer. -/
def s1W : Sys := run s0W [Ev.pos 0 (1/2) (1/2) 0]

/-- Witness state: the commit for cell `a` is in flight. -/
def sInflW : Sys := run s0W esC2W

/-- A witness server response to a visit commit. -/
def respW : VisitResponse := ⟨1, 1, 50⟩

/-- A run valid both for `min_dwell_s = 1` and `min_dwell_s = 20`. -/
def esC4W : List Ev := [Ev.pos 0 (1/2) (1/2) 0, Ev.fire 1 20000]

/-- Witness run: enter cell `a` at `(lat 1/4, lon 1/2)`, move within the
cell to `(lat 3/4, lon 1/2)`, then the dwell timer fires. -/
def esC6W : List Ev :=
  [Ev.pos 0 (1/4) (1/2) 0, Ev.pos 500 (3/4) (1/2) 0, Ev.fire 1 1000]

/-- Witness run: dwell in `a` commits; while the commit is still in
flight, leave the grid, re-enter `a`, and dwell again. -/
def esC7W : List Ev :=
  [Ev.pos 0 (1/2) (1/2) 0, Ev.fire 1 1000, Ev.pos 1500 10 10 0,
   Ev.pos 2000 (1/2) (1/2) 0, Ev.fire 2 3000]

/-- The state of `esC7W` after its first event (cell `a` entered, timer
armed). -/
def sC7s1 : Sys :=
  { s0W with
    lastPos := some (1/2, 1/2),
    timers := [⟨1, "a", 0, 1/2, 1/2, 1000⟩],
    nextTimerId := 2, nextIntervalId := 2,
    app := { s0W.app with
             currentCellId := some "a", cellEnteredAt := some 0,
             dwellTimer := some 1, countdownInterval := some 1,
             cellStatus := "In cell — 1s..." } }

/-- The state of `esC7W` after its second event (first commit for cell
`a` submitted and in flight). -/
def sC7s2 : Sys :=
  { sC7s1 with
    timers := [],
    inflight := [⟨1, "a", 0, 1000, 1/2, 1/2⟩],
    submitted := [⟨1, "a", 0, 1000, 1/2, 1/2⟩],
    nextReqId := 2,
    app := { sC7s1.app with dwellTimer := none } }

/-- The state of `esC7W` after its third event (player left the grid
while the commit is still in flight). -/
def sC7s3 : Sys :=
  { sC7s2 with
    lastPos := some (10, 10),
    app := { sC7s2.app with
             currentCellId := none, cellEnteredAt := some 1500,
             countdownInterval := none, cellStatus := "Outside grid area" } }

/-- The state of `esC7W` after its fourth event (cell `a` re-entered, a
second timer armed while the first commit is still in flight). -/
def sC7s4 : Sys :=
  { sC7s3 with
    lastPos := some (1/2, 1/2),
    timers := [⟨2, "a", 2000, 1/2, 1/2, 3000⟩],
    nextTimerId := 3, nextIntervalId := 3,
    app := { sC7s3.app with
             currentCellId := some "a", cellEnteredAt := some 2000,
             dwellTimer := some 2, countdownInterval := some 2,
             cellStatus := "In cell — 1s..." } }

/-- The state of `esC7W` after all five events (two commits for cell `a`
simultaneously in flight). -/
def sC7s5 : Sys :=
  { sC7s4 with
    timers := [],
    inflight := sC7s4.inflight ++ [⟨2, "a", 2000, 3000, 1/2, 1/2⟩],
    submitted := sC7s4.submitted ++ [⟨2, "a", 2000, 3000, 1/2, 1/2⟩],
    nextReqId := 3,
    app := { sC7s4.app with dwellTimer := none } }

/-- The timer pending in `sC7s4`. -/
def ptC7 : PendingTimer := ⟨2, "a", 2000, 1/2, 1/2, 3000⟩

/-- Witness state: paused with a dwell candidate pending at pause time. -/
def sPauseW : Sys := step s1W Ev.pause

/-- Witness state: resumed from `sPauseW`. -/
def sResW : Sys := step sPauseW Ev.resume

/-- A witness run with one set of reported GPS accuracies. -/
def esAccA : List Ev :=
  [Ev.pos 0 (1/2) (1/2) 5, Ev.pos 700 (1/2) (3/2) 12, Ev.fire 2 1700]

/-- The same run as `esAccA` with different reported GPS accuracies. -/
def esAccB : List Ev :=
  [Ev.pos 0 (1/2) (1/2) 99, Ev.pos 700 (1/2) (3/2) 3, Ev.fire 2 1700]

lemma run_concat (s : Sys) (es : List Ev) (e : Ev) :
    run s (es ++ [e]) = step (run s es) e := by
  induction es generalizing s with
  | nil => rfl
  | cons f fs ih => simpa [run] using ih (step s f)

lemma validRun_concat (s : Sys) (es : List Ev) (e : Ev) :
    validRun s (es ++ [e]) = (validRun s es && timeOkB (run s es) e) := by
  induction es generalizing s with
  | nil => simp [validRun, run]
  | cons f fs ih => simp [validRun, run, ih, Bool.and_assoc]

lemma clearDwellTimer_eq (s : Sys) :
    clearDwellTimer s =
      { s with timers := cdtTimers s, app := { s.app with dwellTimer := none } } := by
  obtain ⟨app, timers, inflight, submitted, w, nt, nr, ni, lp⟩ := s
  obtain ⟨g, md, tc, vc, cc, ce, dt, ci, cs, vs, ts, sps, pvs, pps⟩ := app
  cases dt <;> rfl

lemma stepPos_inactive (s : Sys) (t : Nat) (la lo ac : ℚ)
    (hw : s.watchActive = false) :
    step s (Ev.pos t la lo ac) = s := by
  simp [step, stepPos, hw]

lemma stepPos_same (s : Sys) (t : Nat) (la lo ac : ℚ)
    (hw : s.watchActive = true)
    (hsame : detectCell la lo s.app.grid = s.app.currentCellId) :
    step s (Ev.pos t la lo ac) = { s with lastPos := some (la, lo) } := by
  simp [step, stepPos, hw, hsame]

lemma stepPos_change_some (s : Sys) (t : Nat) (la lo ac : ℚ) (c : String)
    (hw : s.watchActive = true)
    (hne : detectCell la lo s.app.grid ≠ s.app.currentCellId)
    (hc : detectCell la lo s.app.grid = some c) :
    (step s (Ev.pos t la lo ac)).timers =
      cdtTimers s ++ [⟨s.nextTimerId, c, t, la, lo, t + s.app.minDwellS * 1000⟩] ∧
    (step s (Ev.pos t la lo ac)).app.dwellTimer = some s.nextTimerId ∧
    (step s (Ev.pos t la lo ac)).app.currentCellId = some c ∧
    (step s (Ev.pos t la lo ac)).app.cellEnteredAt = some t ∧
    (step s (Ev.pos t la lo ac)).nextTimerId = s.nextTimerId + 1 ∧
    (step s (Ev.pos t la lo ac)).submitted = s.submitted ∧
    (step s (Ev.pos t la lo ac)).inflight = s.inflight ∧
    (step s (Ev.pos t la lo ac)).watchActive = true := by
  obtain ⟨app, timers, inflight, submitted, w, nt, nr, ni, lp⟩ := s
  obtain ⟨g, md, tc, vc, cc, ce, dt, ci, cs, vs, ts, sps, pvs, pps⟩ := app
  simp only at hw hne hc
  subst hw
  simp only [step, stepPos, cdtTimers]
  rw [if_neg (by simp)]
  rw [hc] at hne ⊢
  rw [if_neg hne]
  cases dt <;> simp only [clearDwellTimer, cdtTimers] <;> split <;> simp

lemma stepPos_change_none (s : Sys) (t : Nat) (la lo ac : ℚ)
    (hw : s.watchActive = true)
    (hne : detectCell la lo s.app.grid ≠ s.app.currentCellId)
    (hc : detectCell la lo s.app.grid = none) :
    step s (Ev.pos t la lo ac) =
      { s with
        lastPos := some (la, lo),
        timers := cdtTimers s,
        app := { s.app with
                 dwellTimer := none,
                 countdownInterval := none,
                 currentCellId := none,
                 cellEnteredAt := some t,
                 cellStatus := "Outside grid area" } } := by
  obtain ⟨app, timers, inflight, submitted, w, nt, nr, ni, lp⟩ := s
  obtain ⟨g, md, tc, vc, cc, ce, dt, ci, cs, vs, ts, sps, pvs, pps⟩ := app
  simp only at hw hne hc
  subst hw
  simp only [step, stepPos, cdtTimers]
  rw [if_neg (by simp)]
  rw [hc] at hne ⊢
  rw [if_neg hne]
  cases dt <;> simp [clearDwellTimer]

lemma stepFire_found (s : Sys) (tid t : Nat) (pt : PendingTimer)
    (h : s.timers.find? (fun q => q.id == tid) = some pt) :
    step s (Ev.fire tid t) =
      { s with
        timers := s.timers.filter fun q => q.id != tid,
        app := { s.app with dwellTimer := none },
        inflight := s.inflight ++
          [⟨s.nextReqId, pt.cellId, pt.enteredAt, t, pt.lat, pt.lon⟩],
        submitted := s.submitted ++
          [⟨s.nextReqId, pt.cellId, pt.enteredAt, t, pt.lat, pt.lon⟩],
        nextReqId := s.nextReqId + 1 } := by
  simp only [step, stepFire, h]

lemma stepFire_notFound (s : Sys) (tid t : Nat)
    (h : s.timers.find? (fun q => q.id == tid) = none) :
    step s (Ev.fire tid t) = s := by
  simp only [step, stepFire, h]

lemma cdtTimers_of_inv (s : Sys) (hI : TimerInv s) : cdtTimers s = [] := by
  rcases hI with ⟨ht, hd⟩ | ⟨pt, ht, hd, _⟩ <;> simp [cdtTimers, ht, hd]

lemma step_config (s : Sys) (e : Ev) :
    (step s e).app.grid = s.app.grid ∧ (step s e).app.minDwellS = s.app.minDwellS := by
  obtain ⟨app, timers, inflight, submitted, w, nt, nr, ni, lp⟩ := s
  obtain ⟨g, md, tc, vc, cc, ce, dt, ci, cs, vs, ts, sps, pvs, pps⟩ := app
  cases e <;>
    simp only [step, stepPos, stepFire, stepNetOk, stepNetErr, stepGpsError,
      stepPause, stepResume, clearDwellTimer] <;>
    (repeat' split) <;> simp

lemma run_config (s : Sys) (es : List Ev) :
    (run s es).app.grid = s.app.grid ∧ (run s es).app.minDwellS = s.app.minDwellS := by
  induction es generalizing s with
  | nil => exact ⟨rfl, rfl⟩
  | cons e es ih =>
    have h := step_config s e
    have h2 := ih (step s e)
    exact ⟨h2.1.trans h.1, h2.2.trans h.2⟩

lemma timerInv_of_fields (s t : Sys)
    (ht : t.timers = s.timers) (hd : t.app.dwellTimer = s.app.dwellTimer)
    (hc : t.app.currentCellId = s.app.currentCellId)
    (hm : t.app.minDwellS = s.app.minDwellS)
    (hw : t.watchActive = s.watchActive) (hn : t.nextTimerId = s.nextTimerId)
    (hI : TimerInv s) : TimerInv t := by
  unfold TimerInv at hI ⊢
  rw [ht, hd, hc, hm, hw, hn]
  exact hI

lemma stepNetOk_fields (s : Sys) (rid : Nat) (resp : VisitResponse) :
    (step s (Ev.netOk rid resp)).timers = s.timers ∧
    (step s (Ev.netOk rid resp)).app.dwellTimer = s.app.dwellTimer ∧
    (step s (Ev.netOk rid resp)).app.currentCellId = s.app.currentCellId ∧
    (step s (Ev.netOk rid resp)).watchActive = s.watchActive ∧
    (step s (Ev.netOk rid resp)).nextTimerId = s.nextTimerId ∧
    (step s (Ev.netOk rid resp)).submitted = s.submitted := by
  simp only [step, stepNetOk]
  cases s.inflight.find? (fun r => r.id == rid) <;> simp

lemma stepNetErr_fields (s : Sys) (rid : Nat) (msg : String) :
    (step s (Ev.netErr rid msg)).timers = s.timers ∧
    (step s (Ev.netErr rid msg)).app.dwellTimer = s.app.dwellTimer ∧
    (step s (Ev.netErr rid msg)).app.currentCellId = s.app.currentCellId ∧
    (step s (Ev.netErr rid msg)).watchActive = s.watchActive ∧
    (step s (Ev.netErr rid msg)).nextTimerId = s.nextTimerId ∧
    (step s (Ev.netErr rid msg)).submitted = s.submitted := by
  simp only [step, stepNetErr]
  cases s.inflight.find? (fun r => r.id == rid) <;> simp

lemma stepGpsError_fields (s : Sys) (msg : String) :
    (step s (Ev.gpsError msg)).timers = s.timers ∧
    (step s (Ev.gpsError msg)).app.dwellTimer = s.app.dwellTimer ∧
    (step s (Ev.gpsError msg)).app.currentCellId = s.app.currentCellId ∧
    (step s (Ev.gpsError msg)).watchActive = s.watchActive ∧
    (step s (Ev.gpsError msg)).nextTimerId = s.nextTimerId ∧
    (step s (Ev.gpsError msg)).submitted = s.submitted := by
  by_cases h : s.watchActive <;> simp [step, stepGpsError, h]

lemma stepPause_fields (s : Sys) :
    (step s Ev.pause).timers = cdtTimers s ∧
    (step s Ev.pause).app.dwellTimer = none ∧
    (step s Ev.pause).app.currentCellId = none ∧
    (step s Ev.pause).watchActive = false ∧
    (step s Ev.pause).nextTimerId = s.nextTimerId ∧
    (step s Ev.pause).submitted = s.submitted ∧
    (step s Ev.pause).inflight = s.inflight ∧
    (step s Ev.pause).app.visitedCells = s.app.visitedCells := by
  obtain ⟨app, timers, inflight, submitted, w, nt, nr, ni, lp⟩ := s
  obtain ⟨g, md, tc, vc, cc, ce, dt, ci, cs, vs, ts, sps, pvs, pps⟩ := app
  cases dt <;> simp [step, stepPause, clearDwellTimer, cdtTimers]

lemma stepResume_eq (s : Sys) :
    step s Ev.resume =
      { s with watchActive := true, app := { s.app with cellStatus := "" } } := rfl

lemma timerInv_step (s : Sys) (e : Ev) (hI : TimerInv s) : TimerInv (step s e) := by
  cases e with
  | pos t la lo ac =>
    by_cases hw : s.watchActive = true
    · by_cases hsame : detectCell la lo s.app.grid = s.app.currentCellId
      · rw [stepPos_same s t la lo ac hw hsame]
        exact timerInv_of_fields _ s rfl rfl rfl rfl rfl rfl hI
      · cases hc : detectCell la lo s.app.grid with
        | none =>
          rw [stepPos_change_none s t la lo ac hw hsame hc]
          left
          exact ⟨cdtTimers_of_inv s hI, rfl⟩
        | some c =>
          obtain ⟨ht, hd, hcc, hce, hn, _, _, hwa⟩ :=
            stepPos_change_some s t la lo ac c hw hsame hc
          right
          refine ⟨⟨s.nextTimerId, c, t, la, lo, t + s.app.minDwellS * 1000⟩, ?_, ?_, ?_, ?_, ?_, ?_⟩
          · rw [ht, cdtTimers_of_inv s hI]; rfl
          · rw [hd]
          · rw [hcc]
          · have := (step_config s (Ev.pos t la lo ac)).2
            simp only [this]
          · exact hwa
          · rw [hn]; exact Nat.lt_succ_self _
    · have hw2 : s.watchActive = false := by
        cases h : s.watchActive
        · rfl
        · exact absurd h hw
      rw [stepPos_inactive s t la lo ac hw2]
      exact hI
  | fire tid t =>
    cases h : s.timers.find? (fun q => q.id == tid) with
    | none => rw [stepFire_notFound s tid t h]; exact hI
    | some pt =>
      rw [stepFire_found s tid t pt h]
      left
      refine ⟨?_, rfl⟩
      rcases hI with ⟨ht, _⟩ | ⟨pt0, ht, _⟩
      · simp [ht]
      · have hmem := List.mem_of_find?_eq_some h
        have hpred := List.find?_some h
        rw [ht] at hmem ⊢
        simp only [List.mem_singleton] at hmem
        subst hmem
        simp only [beq_iff_eq] at hpred
        simp [List.filter, hpred]
  | netOk rid resp =>
    obtain ⟨h1, h2, h3, h4, h5, _⟩ := stepNetOk_fields s rid resp
    exact timerInv_of_fields s _ h1 h2 h3 (step_config s _).2 h4 h5 hI
  | netErr rid msg =>
    obtain ⟨h1, h2, h3, h4, h5, _⟩ := stepNetErr_fields s rid msg
    exact timerInv_of_fields s _ h1 h2 h3 (step_config s _).2 h4 h5 hI
  | gpsError msg =>
    obtain ⟨h1, h2, h3, h4, h5, _⟩ := stepGpsError_fields s msg
    exact timerInv_of_fields s _ h1 h2 h3 (step_config s _).2 h4 h5 hI
  | pause =>
    obtain ⟨h1, h2, _⟩ := stepPause_fields s
    left
    exact ⟨h1.trans (cdtTimers_of_inv s hI), h2⟩
  | resume =>
    rw [stepResume_eq s]
    rcases hI with ⟨ht, hd⟩ | ⟨pt, ht, hd, hcc, hf, _, hid⟩
    · left; exact ⟨ht, hd⟩
    · right; exact ⟨pt, ht, hd, hcc, hf, rfl, hid⟩

lemma timerInv_run (s : Sys) (es : List Ev) (hI : TimerInv s) :
    TimerInv (run s es) := by
  induction es generalizing s with
  | nil => exact hI
  | cons e es ih => exact ih (step s e) (timerInv_step s e hI)

lemma timerInv_startGame (result : GameResult) (visits : List PriorVisit) :
    TimerInv (startGame result visits) := by
  left
  exact ⟨rfl, rfl⟩

lemma step_timer_origin (s : Sys) (e : Ev) (pt : PendingTimer)
    (hI : TimerInv s) (hpt : pt ∈ (step s e).timers) :
    (pt ∈ s.timers ∧ KeepsCell s.app.grid pt.cellId e ∧ e ≠ Ev.pause) ∨
    (∃ t la lo ac, e = Ev.pos t la lo ac ∧ s.watchActive = true ∧
      detectCell la lo s.app.grid = some pt.cellId ∧
      detectCell la lo s.app.grid ≠ s.app.currentCellId ∧
      pt.enteredAt = t ∧ pt.lat = la ∧ pt.lon = lo ∧ pt.id = s.nextTimerId ∧
      pt.firesAt = t + s.app.minDwellS * 1000) := by
  cases e with
  | pos t la lo ac =>
    by_cases hw : s.watchActive = true
    · by_cases hsame : detectCell la lo s.app.grid = s.app.currentCellId
      · rw [stepPos_same s t la lo ac hw hsame] at hpt
        have hpt2 : pt ∈ s.timers := hpt
        left
        refine ⟨hpt2, ?_, fun h => Ev.noConfusion h⟩
        rcases hI with ⟨ht, _⟩ | ⟨pt0, ht, _, hcc, _⟩
        · rw [ht] at hpt2; cases hpt2
        · rw [ht] at hpt2
          simp only [List.mem_singleton] at hpt2
          subst hpt2
          show detectCell la lo s.app.grid = some pt.cellId
          rw [hsame, hcc]
      · cases hc : detectCell la lo s.app.grid with
        | none =>
          rw [stepPos_change_none s t la lo ac hw hsame hc] at hpt
          have hpt2 : pt ∈ cdtTimers s := hpt
          rw [cdtTimers_of_inv s hI] at hpt2
          cases hpt2
        | some c =>
          obtain ⟨ht, _⟩ := stepPos_change_some s t la lo ac c hw hsame hc
          rw [ht, cdtTimers_of_inv s hI] at hpt
          simp only [List.nil_append, List.mem_singleton] at hpt
          subst hpt
          right
          exact ⟨t, la, lo, ac, rfl, hw, hc, hsame, rfl, rfl, rfl, rfl, rfl⟩
    · have hw2 : s.watchActive = false := by
        cases h : s.watchActive
        · rfl
        · exact absurd h hw
      rw [stepPos_inactive s t la lo ac hw2] at hpt
      left
      refine ⟨hpt, ?_, fun h => Ev.noConfusion h⟩
      rcases hI with ⟨ht, _⟩ | ⟨pt0, ht, _, _, _, hwa, _⟩
      · rw [ht] at hpt; cases hpt
      · rw [hwa] at hw2; cases hw2
  | fire tid t =>
    cases h : s.timers.find? (fun q => q.id == tid) with
    | none =>
      rw [stepFire_notFound s tid t h] at hpt
      exact Or.inl ⟨hpt, trivial, fun h2 => Ev.noConfusion h2⟩
    | some q =>
      rw [stepFire_found s tid t q h] at hpt
      have hpt2 : pt ∈ s.timers.filter (fun r => r.id != tid) := hpt
      exact Or.inl ⟨List.mem_of_mem_filter hpt2, trivial, fun h2 => Ev.noConfusion h2⟩
  | netOk rid resp =>
    rw [(stepNetOk_fields s rid resp).1] at hpt
    exact Or.inl ⟨hpt, trivial, fun h2 => Ev.noConfusion h2⟩
  | netErr rid msg =>
    rw [(stepNetErr_fields s rid msg).1] at hpt
    exact Or.inl ⟨hpt, trivial, fun h2 => Ev.noConfusion h2⟩
  | gpsError msg =>
    rw [(stepGpsError_fields s msg).1] at hpt
    exact Or.inl ⟨hpt, trivial, fun h2 => Ev.noConfusion h2⟩
  | pause =>
    rw [(stepPause_fields s).1, cdtTimers_of_inv s hI] at hpt
    cases hpt
  | resume =>
    rw [stepResume_eq s] at hpt
    have hpt2 : pt ∈ s.timers := hpt
    exact Or.inl ⟨hpt2, trivial, fun h2 => Ev.noConfusion h2⟩

lemma timer_provenance (s0 : Sys) (h0 : TimerInv s0)
    (es : List Ev) (pt : PendingTimer) (hpt : pt ∈ (run s0 es).timers) :
    pt ∈ s0.timers ∨
    ∃ es1 ac es2,
      es = es1 ++ Ev.pos pt.enteredAt pt.lat pt.lon ac :: es2 ∧
      detectCell pt.lat pt.lon s0.app.grid = some pt.cellId ∧
      detectCell pt.lat pt.lon s0.app.grid ≠ (run s0 es1).app.currentCellId ∧
      pt.firesAt = pt.enteredAt + s0.app.minDwellS * 1000 ∧
      ∀ e ∈ es2, KeepsCell s0.app.grid pt.cellId e ∧ e ≠ Ev.pause := by
  induction es using List.reverseRecOn with
  | nil => left; exact hpt
  | append_singleton es e ih =>
    rw [run_concat] at hpt
    have hIr : TimerInv (run s0 es) := timerInv_run s0 es h0
    rcases step_timer_origin (run s0 es) e pt hIr hpt with
      ⟨hmem, hkeep, hnp⟩ |
      ⟨t, la, lo, ac, he, hw, hdet, hne, hent, hlat, hlon, hid, hfire⟩
    · rcases ih hmem with hin | ⟨es1, ac, es2, heq, hdet, hne, hfa, hall⟩
      · left; exact hin
      · right
        refine ⟨es1, ac, es2 ++ [e], by rw [heq]; simp, hdet, hne, hfa, ?_⟩
        intro f hf
        rcases List.mem_append.1 hf with hf1 | hf2
        · exact hall f hf1
        · simp only [List.mem_singleton] at hf2
          subst hf2
          rw [(run_config s0 es).1] at hkeep
          exact ⟨hkeep, hnp⟩
    · subst he
      right
      refine ⟨es, ac, [], by rw [hent, hlat, hlon], ?_, ?_, ?_, ?_⟩
      · rw [hlat, hlon, ← (run_config s0 es).1]
        exact hdet
      · rw [hlat, hlon, ← (run_config s0 es).1]
        exact hne
      · rw [hent, ← (run_config s0 es).2]
        exact hfire
      · intro f hf
        cases hf

lemma stepPos_submitted (s : Sys) (t : Nat) (la lo ac : ℚ) :
    (step s (Ev.pos t la lo ac)).submitted = s.submitted := by
  obtain ⟨app, timers, inflight, submitted, w, nt, nr, ni, lp⟩ := s
  obtain ⟨g, md, tc, vc, cc, ce, dt, ci, cs, vs, ts, sps, pvs, pps⟩ := app
  simp only [step, stepPos, clearDwellTimer]
  (repeat' split) <;> simp

lemma submitted_origin (s : Sys) (e : Ev) (req : PendingRequest)
    (hreq : req ∈ (step s e).submitted) :
    req ∈ s.submitted ∨
    ∃ tid t pt, e = Ev.fire tid t ∧
      s.timers.find? (fun q => q.id == tid) = some pt ∧
      req = ⟨s.nextReqId, pt.cellId, pt.enteredAt, t, pt.lat, pt.lon⟩ := by
  cases e with
  | pos t la lo ac =>
    rw [stepPos_submitted] at hreq
    exact Or.inl hreq
  | fire tid t =>
    cases h : s.timers.find? (fun q => q.id == tid) with
    | none =>
      rw [stepFire_notFound s tid t h] at hreq
      exact Or.inl hreq
    | some pt =>
      rw [stepFire_found s tid t pt h] at hreq
      have hreq2 : req ∈ s.submitted ++
          [⟨s.nextReqId, pt.cellId, pt.enteredAt, t, pt.lat, pt.lon⟩] := hreq
      rcases List.mem_append.1 hreq2 with h1 | h2
      · exact Or.inl h1
      · simp only [List.mem_singleton] at h2
        exact Or.inr ⟨tid, t, pt, rfl, h, h2⟩
  | netOk rid resp =>
    rw [(stepNetOk_fields s rid resp).2.2.2.2.2] at hreq
    exact Or.inl hreq
  | netErr rid msg =>
    rw [(stepNetErr_fields s rid msg).2.2.2.2.2] at hreq
    exact Or.inl hreq
  | gpsError msg =>
    rw [(stepGpsError_fields s msg).2.2.2.2.2] at hreq
    exact Or.inl hreq
  | pause =>
    rw [(stepPause_fields s).2.2.2.2.2.1] at hreq
    exact Or.inl hreq
  | resume =>
    rw [stepResume_eq s] at hreq
    exact Or.inl hreq

lemma uninterrupted_of_submitted (result : GameResult) (visits : List PriorVisit)
    (es : List Ev) (req : PendingRequest)
    (hv : validRun (startGame result visits) es = true)
    (hreq : req ∈ (run (startGame result visits) es).submitted) :
    UninterruptedDwell result visits es req := by
  induction es using List.reverseRecOn with
  | nil => cases hreq
  | append_singleton es e ih =>
    rw [run_concat] at hreq
    rw [validRun_concat, Bool.and_eq_true] at hv
    obtain ⟨hv1, hok⟩ := hv
    rcases submitted_origin (run (startGame result visits) es) e req hreq with
      hold | ⟨tid, t, pt, he, hfind, hreqeq⟩
    · obtain ⟨es1, ac, es2, tid, es3, heq, h2, h3, h4, h5⟩ := ih hv1 hold
      exact ⟨es1, ac, es2, tid, es3 ++ [e], by rw [heq]; simp, h2, h3, h4, h5⟩
    · subst he
      have hmem : pt ∈ (run (startGame result visits) es).timers :=
        List.mem_of_find?_eq_some hfind
      have hidtid : pt.id = tid := by
        have := List.find?_some hfind
        simpa using this
      simp only [timeOkB, List.all_eq_true] at hok
      have h2 := hok pt hmem
      simp only [hidtid, bne_self_eq_false, Bool.false_or, decide_eq_true_eq] at h2
      rcases timer_provenance (startGame result visits)
          (timerInv_startGame result visits) es pt hmem with
        hin | ⟨es1, ac, es2, heq, hdet, hne, hfa, hall⟩
      · cases hin
      · subst hreqeq
        refine ⟨es1, ac, es2, tid, [], ?_, ?_, ?_, ?_, ?_⟩
        · rw [heq]
          simp
        · exact hdet
        · intro h
          exact hne (hdet.trans h.symm)
        · rw [hfa] at h2
          exact h2
        · exact hall

lemma detectCellLoop_eq_find (pt : ℚ × ℚ) (fs : List Feature) :
    detectCellLoop pt fs =
      (fs.find? (fun f => booleanPointInPolygon pt f)).map Feature.cell_id := by
  induction fs with
  | nil => rfl
  | cons f rest ih =>
    by_cases h : booleanPointInPolygon pt f
    · simp [detectCellLoop, h, List.find?_cons_of_pos]
    · rw [detectCellLoop, if_neg (by simpa using h),
        List.find?_cons_of_neg _ (by simpa using h), ih]

lemma find?_of_filter_singleton {α : Type} {p : α → Bool} {l : List α} {a : α}
    (h : l.filter p = [a]) : l.find? p = some a := by
  induction l with
  | nil => simp at h
  | cons b l ih =>
    by_cases hp : p b
    · rw [List.filter_cons_of_pos hp] at h
      obtain ⟨hba, -⟩ : b = a ∧ l.filter p = [] := by simpa using h
      rw [List.find?_cons_of_pos _ hp, hba]
    · rw [List.filter_cons_of_neg hp] at h
      rw [List.find?_cons_of_neg _ hp]
      exact ih h

/-- C1: for every geographic point and grid, `Grid.detectCell` returns
`none` when the point-in-polygon test (turf's ray casting, holes
respected) rejects every cell, returns the unique matching cell's id when
exactly one cell's polygon contains the point (the situation guaranteed
by a non-overlapping grid and a point strictly inside one cell), and in
general is the pure linear first-match scan
`find?` over the feature list — it returns a value and touches no state. -/
theorem detectCell_locate_spec (lat lon : ℚ) (g : FeatureCollection) :
    ((∀ f ∈ g.features, booleanPointInPolygon (lon, lat) f = false) →
      detectCell lat lon g = none) ∧
    (∀ f, g.features.filter (fun f2 => booleanPointInPolygon (lon, lat) f2) = [f] →
      detectCell lat lon g = some f.cell_id) ∧
    detectCell lat lon g =
      (g.features.find? (fun f => booleanPointInPolygon (lon, lat) f)).map
        Feature.cell_id := by
  refine ⟨?_, ?_, detectCellLoop_eq_find (lon, lat) g.features⟩
  · intro h
    rw [detectCell, detectCellLoop_eq_find, List.find?_eq_none.2 ?_]
    · rfl
    · intro f hf
      simp [h f hf]
  · intro f hf
    rw [detectCell, detectCellLoop_eq_find, find?_of_filter_singleton hf]
    rfl

/-- C1 witness: on the concrete two-cell grid, a point inside only cell
`b` locates to `b`, and a point outside both cells locates to `none`. -/
theorem detectCell_locate_spec_witness :
    detectCell (1/2) (3/2) gridW = some "b" ∧ detectCell 10 10 gridW = none :=
  ⟨(detectCell_locate_spec (1/2) (3/2) gridW).2.1 featB
      (by with_unfolding_all decide),
   (detectCell_locate_spec 10 10 gridW).1 (by with_unfolding_all decide)⟩

/-- C2: dwell confirmations are sound. (1) Every visit commit a session
ever submits comes from a cell-entry sample followed — with no
intervening different-cell or outside sample and no intervening pause —
by a timer firing at least `minDwellS * 1000` ms after entry. (2) A
sample that detects the currently tracked cell value causes no
transition: the whole tracker state is unchanged (only the map-position
display moves). (3) A sample that differs cancels the pending
confirmation timer without committing anything, and when the new value is
a cell it arms a fresh full-length timer (delay `minDwellS * 1000`, zero
elapsed credit); when it is `none` no timer is armed. -/
theorem dwell_confirmation_uninterrupted :
    (∀ result visits es req,
      validRun (startGame result visits) es = true →
      req ∈ (run (startGame result visits) es).submitted →
      UninterruptedDwell result visits es req) ∧
    (∀ s t la lo ac, s.watchActive = true →
      detectCell la lo s.app.grid = s.app.currentCellId →
      step s (Ev.pos t la lo ac) = { s with lastPos := some (la, lo) }) ∧
    (∀ s t la lo ac, s.watchActive = true →
      detectCell la lo s.app.grid ≠ s.app.currentCellId →
      (step s (Ev.pos t la lo ac)).submitted = s.submitted ∧
      (detectCell la lo s.app.grid = none →
        (step s (Ev.pos t la lo ac)).timers = cdtTimers s) ∧
      (∀ c, detectCell la lo s.app.grid = some c →
        (step s (Ev.pos t la lo ac)).timers =
          cdtTimers s ++ [⟨s.nextTimerId, c, t, la, lo, t + s.app.minDwellS * 1000⟩] ∧
        (step s (Ev.pos t la lo ac)).app.dwellTimer = some s.nextTimerId)) := by
  refine ⟨uninterrupted_of_submitted, stepPos_same, ?_⟩
  intro s t la lo ac hw hne
  refine ⟨stepPos_submitted s t la lo ac, ?_, ?_⟩
  · intro hn
    rw [stepPos_change_none s t la lo ac hw hne hn]
  · intro c hc
    obtain ⟨h1, h2, _⟩ := stepPos_change_some s t la lo ac c hw hne hc
    exact ⟨h1, h2⟩

/-- C2 witness: the concrete run `esC2W` is valid and commits `reqC2W`,
so the theorem yields its entry/firing decomposition; a repeated
same-cell sample leaves `s1W`'s tracker state untouched; and the entry
sample into cell `a` arms the fresh full-length (1000 ms) timer. -/
theorem dwell_confirmation_uninterrupted_witness :
    UninterruptedDwell resW [] esC2W reqC2W ∧
    step s1W (Ev.pos 5 (1/2) (1/2) 9) = { s1W with lastPos := some (1/2, 1/2) } ∧
    (step s0W (Ev.pos 0 (1/2) (1/2) 0)).timers =
      cdtTimers s0W ++ [⟨1, "a", 0, 1/2, 1/2, 1000⟩] :=
  ⟨dwell_confirmation_uninterrupted.1 resW [] esC2W reqC2W
      (by with_unfolding_all decide) (by with_unfolding_all decide),
   dwell_confirmation_uninterrupted.2.1 s1W 5 (1/2) (1/2) 9
      (by with_unfolding_all decide) (by with_unfolding_all decide),
   by with_unfolding_all exact
      ((dwell_confirmation_uninterrupted.2.2 s0W 0 (1/2) (1/2) 0
        (by with_unfolding_all decide) (by with_unfolding_all decide)).2.2 "a"
        (by with_unfolding_all decide)).1⟩

/-- C3: in every reachable state of a session at most one dwell
confirmation timeout is pending in the runtime (arming is always preceded
by cancelling the previous one), and pausing leaves no pending timeout at
all. -/
theorem at_most_one_pending_timer (result : GameResult) (visits : List PriorVisit)
    (es : List Ev) :
    ((run (startGame result visits) es).timers).length ≤ 1 ∧
    (step (run (startGame result visits) es) Ev.pause).timers = [] := by
  have hI := timerInv_run _ es (timerInv_startGame result visits)
  constructor
  · rcases hI with ⟨ht, _⟩ | ⟨pt, ht, _⟩ <;> simp [ht]
  · rw [(stepPause_fields _).1]
    exact cdtTimers_of_inv _ hI

lemma lookupVC_setVC (l : List (String × VisitRecord)) (c : String) (v : VisitRecord) :
    lookupVC (setVC l c v) c = some v := by
  induction l with
  | nil => simp [setVC, lookupVC]
  | cons kv rest ih =>
    obtain ⟨k, w⟩ := kv
    by_cases h : k = c
    · simp [setVC, h, lookupVC]
    · simp [setVC, h, lookupVC, ih]

lemma stepNetOk_found (s : Sys) (rid : Nat) (resp : VisitResponse)
    (req : PendingRequest)
    (h : s.inflight.find? (fun r => r.id == rid) = some req) :
    step s (Ev.netOk rid resp) =
      { s with
        inflight := s.inflight.filter fun r => r.id != rid,
        app := { s.app with
          visitedCells := setVC s.app.visitedCells req.cell_id
            ⟨resp.visit_count, s.app.minDwellS⟩,
          visitedShown := resp.visited_count,
          totalShown := s.app.totalCells,
          scorePctShown := resp.score_pct,
          cellStatus := "Visited " ++ req.cell_id ++ "!" } } := by
  simp only [step, stepNetOk, h]

lemma stepNetErr_found (s : Sys) (rid : Nat) (msg : String)
    (req : PendingRequest)
    (h : s.inflight.find? (fun r => r.id == rid) = some req) :
    step s (Ev.netErr rid msg) =
      { s with
        inflight := s.inflight.filter fun r => r.id != rid,
        app := { s.app with cellStatus := "Visit error: " ++ msg } } := by
  simp only [step, stepNetErr, h]

/-- C4 counterexample: the claim says the local VisitRecord is updated
only from the fields of the server's response. Two sessions that issued
the same commit and receive the same response (`respW`) nevertheless end
up with different VisitRecords for cell `a` — the record's `dwellS` field
is copied from the session's local `minDwellS` (1 vs 20), not from the
response — so the updated record is not a function of the response
fields. -/
theorem visit_update_not_only_server_cex :
    lookupVC (step (run (startGame resW []) esC4W)
        (Ev.netOk 1 respW)).app.visitedCells "a" ≠
      lookupVC (step (run (startGame resW20 []) esC4W)
        (Ev.netOk 1 respW)).app.visitedCells "a" := by
  with_unfolding_all decide

/-- C4 (amended): on a successful commit the client's `visitCount` and
the displayed aggregate score are taken verbatim from the server response
(`visit_count`, `visited_count`, `score_pct`) — never a local increment
or a locally recomputed percentage — while the record's `dwellS` field is
filled from the session's local `minDwellS` (the response carries no
dwell field). -/
theorem visit_update_from_server_fields (s : Sys) (rid : Nat)
    (resp : VisitResponse) (req : PendingRequest)
    (h : s.inflight.find? (fun r => r.id == rid) = some req) :
    lookupVC (step s (Ev.netOk rid resp)).app.visitedCells req.cell_id =
      some ⟨resp.visit_count, s.app.minDwellS⟩ ∧
    (step s (Ev.netOk rid resp)).app.visitedShown = resp.visited_count ∧
    (step s (Ev.netOk rid resp)).app.scorePctShown = resp.score_pct ∧
    (step s (Ev.netOk rid resp)).app.totalShown = s.app.totalCells ∧
    (step s (Ev.netOk rid resp)).inflight =
      s.inflight.filter fun r => r.id != rid := by
  rw [stepNetOk_found s rid resp req h]
  exact ⟨lookupVC_setVC _ _ _, rfl, rfl, rfl, rfl⟩

/-- C4 witness: committing cell `a` in the concrete session stores the
server-reported count and shows the server-reported score. -/
theorem visit_update_from_server_fields_witness :
    sInflW.inflight.find? (fun r => r.id == 1) = some reqC2W ∧
    lookupVC (step sInflW (Ev.netOk 1 respW)).app.visitedCells "a" =
      some ⟨1, 1⟩ ∧
    (step sInflW (Ev.netOk 1 respW)).app.scorePctShown = 50 :=
  ⟨by with_unfolding_all decide,
   by with_unfolding_all exact
      (visit_update_from_server_fields sInflW 1 respW reqC2W
        (by with_unfolding_all decide)).1,
   (visit_update_from_server_fields sInflW 1 respW reqC2W
      (by with_unfolding_all decide)).2.2.1⟩

/-- C5: a failed `recordVisit` round trip (network error or server
rejection) leaves the visited-cells mapping, the submission log (no
automatic retry), the timers and the score display unchanged; the only
effects are removing the failed request from the in-flight set and
surfacing `Visit error: ...` in the status line. -/
theorem failed_commit_preserves_state (s : Sys) (rid : Nat) (msg : String)
    (req : PendingRequest)
    (h : s.inflight.find? (fun r => r.id == rid) = some req) :
    (step s (Ev.netErr rid msg)).app.visitedCells = s.app.visitedCells ∧
    (step s (Ev.netErr rid msg)).submitted = s.submitted ∧
    (step s (Ev.netErr rid msg)).timers = s.timers ∧
    (step s (Ev.netErr rid msg)).app.visitedShown = s.app.visitedShown ∧
    (step s (Ev.netErr rid msg)).app.scorePctShown = s.app.scorePctShown ∧
    (step s (Ev.netErr rid msg)).app.cellStatus = "Visit error: " ++ msg ∧
    (step s (Ev.netErr rid msg)).inflight =
      s.inflight.filter fun r => r.id != rid := by
  rw [stepNetErr_found s rid msg req h]
  exact ⟨rfl, rfl, rfl, rfl, rfl, rfl, rfl⟩

/-- C5 witness: a server rejection of the in-flight commit for cell `a`
leaves the concrete session's visited-cells mapping and submission log
unchanged and shows the error. -/
theorem failed_commit_preserves_state_witness :
    sInflW.inflight.find? (fun r => r.id == 1) = some reqC2W ∧
    (step sInflW (Ev.netErr 1 "Dwell too short")).app.visitedCells =
      sInflW.app.visitedCells ∧
    (step sInflW (Ev.netErr 1 "Dwell too short")).submitted = sInflW.submitted ∧
    (step sInflW (Ev.netErr 1 "Dwell too short")).app.cellStatus =
      "Visit error: Dwell too short" :=
  ⟨by with_unfolding_all decide,
   (failed_commit_preserves_state sInflW 1 "Dwell too short" reqC2W
      (by with_unfolding_all decide)).1,
   (failed_commit_preserves_state sInflW 1 "Dwell too short" reqC2W
      (by with_unfolding_all decide)).2.1,
   (failed_commit_preserves_state sInflW 1 "Dwell too short" reqC2W
      (by with_unfolding_all decide)).2.2.2.2.2.1⟩

/-- C6 counterexample: the claim says the dwell-complete payload carries
the position at the moment the timer fires. In the valid run `esC6W` the
player enters cell `a` at latitude `1/4` and is at latitude `3/4` (the
last drawn position) when the timer fires, yet the submitted request
carries latitude `1/4` — the coordinates captured at cell entry, not at
firing. -/
theorem dwell_event_entry_position_cex :
    validRun s0W esC6W = true ∧
    (run s0W esC6W).lastPos = some (3/4, 1/2) ∧
    (run s0W esC6W).submitted.map PendingRequest.lat = [1/4] ∧
    ((1 : ℚ)/4) ≠ 3/4 := by
  with_unfolding_all decide

/-- C6 (amended): the dwell-complete commit carries the cell id, the
entry timestamp, the firing timestamp as `exited_at`, and the latitude
and longitude captured by the arming closure — i.e. the coordinates of
the sample that entered the cell, not the position at the moment the
timer fires. -/
theorem dwell_event_payload :
    (∀ s tid t pt, s.timers.find? (fun q => q.id == tid) = some pt →
      (step s (Ev.fire tid t)).submitted =
        s.submitted ++ [⟨s.nextReqId, pt.cellId, pt.enteredAt, t, pt.lat, pt.lon⟩]) ∧
    (∀ s t la lo ac c, s.watchActive = true →
      detectCell la lo s.app.grid ≠ s.app.currentCellId →
      detectCell la lo s.app.grid = some c →
      (step s (Ev.pos t la lo ac)).timers =
        cdtTimers s ++ [⟨s.nextTimerId, c, t, la, lo, t + s.app.minDwellS * 1000⟩]) := by
  constructor
  · intro s tid t pt h
    rw [stepFire_found s tid t pt h]
  · intro s t la lo ac c hw hne hc
    exact (stepPos_change_some s t la lo ac c hw hne hc).1

/-- C6 witness: in the concrete run the firing timer produces exactly the
request with the entry coordinates and the firing time as `exited_at`. -/
theorem dwell_event_payload_witness :
    s1W.timers.find? (fun q => q.id == 1) = some ⟨1, "a", 0, 1/2, 1/2, 1000⟩ ∧
    (step s1W (Ev.fire 1 1000)).submitted =
      s1W.submitted ++ [⟨1, "a", 0, 1000, 1/2, 1/2⟩] :=
  ⟨by with_unfolding_all decide,
   by with_unfolding_all exact
      (dwell_event_payload.1 s1W 1 1000 ⟨1, "a", 0, 1/2, 1/2, 1000⟩
        (by with_unfolding_all decide))⟩

lemma stepC7_1 : step s0W (Ev.pos 0 (1/2) (1/2) 0) = sC7s1 := by
  with_unfolding_all rfl

lemma stepC7_2 : step sC7s1 (Ev.fire 1 1000) = sC7s2 := by
  with_unfolding_all rfl

lemma stepC7_3 : step sC7s2 (Ev.pos 1500 10 10 0) = sC7s3 := by
  with_unfolding_all rfl

lemma stepC7_4 : step sC7s3 (Ev.pos 2000 (1/2) (1/2) 0) = sC7s4 := by
  with_unfolding_all rfl

lemma stepC7_5 : step sC7s4 (Ev.fire 2 3000) = sC7s5 := by
  with_unfolding_all rfl

lemma runC7 : run s0W esC7W = sC7s5 := by
  have e : run s0W esC7W =
      step (step (step (step (step s0W (Ev.pos 0 (1/2) (1/2) 0))
        (Ev.fire 1 1000)) (Ev.pos 1500 10 10 0)) (Ev.pos 2000 (1/2) (1/2) 0))
        (Ev.fire 2 3000) := rfl
  rw [e, stepC7_1, stepC7_2, stepC7_3, stepC7_4, stepC7_5]

lemma validC7 : validRun s0W esC7W = true := by
  have e : validRun s0W esC7W =
      (timeOkB s0W (Ev.pos 0 (1/2) (1/2) 0) &&
       (timeOkB (step s0W (Ev.pos 0 (1/2) (1/2) 0)) (Ev.fire 1 1000) &&
        (timeOkB (step (step s0W (Ev.pos 0 (1/2) (1/2) 0)) (Ev.fire 1 1000))
            (Ev.pos 1500 10 10 0) &&
         (timeOkB (step (step (step s0W (Ev.pos 0 (1/2) (1/2) 0))
              (Ev.fire 1 1000)) (Ev.pos 1500 10 10 0))
            (Ev.pos 2000 (1/2) (1/2) 0) &&
          (timeOkB (step (step (step (step s0W (Ev.pos 0 (1/2) (1/2) 0))
               (Ev.fire 1 1000)) (Ev.pos 1500 10 10 0))
               (Ev.pos 2000 (1/2) (1/2) 0))
            (Ev.fire 2 3000) && true))))) := rfl
  rw [e, stepC7_1, stepC7_2, stepC7_3, stepC7_4]
  with_unfolding_all rfl

/-- C7 counterexample: the claim says a second confirmation for the same
cell is never submitted while one is outstanding. `esC7W` is a valid run
(first commit still awaiting its response) after which two in-flight
requests for cell `a` are outstanding simultaneously. -/
theorem duplicate_inflight_commit_cex :
    validRun s0W esC7W = true ∧
    (run s0W esC7W).inflight.map PendingRequest.cell_id = ["a", "a"] := by
  refine ⟨validC7, ?_⟩
  rw [runC7]
  with_unfolding_all rfl

/-- C7 (amended): `onDwellComplete` performs no in-flight tracking:
every timer firing submits a commit unconditionally — the new request is
appended to the in-flight set whatever it already contains, in particular
while a request for the same cell is still outstanding. Deduplication
relies entirely on the server's idempotent upsert. -/
theorem fire_always_submits (s : Sys) (tid t : Nat) (pt : PendingTimer)
    (h : s.timers.find? (fun q => q.id == tid) = some pt) :
    (step s (Ev.fire tid t)).inflight =
      s.inflight ++ [⟨s.nextReqId, pt.cellId, pt.enteredAt, t, pt.lat, pt.lon⟩] ∧
    (step s (Ev.fire tid t)).submitted =
      s.submitted ++ [⟨s.nextReqId, pt.cellId, pt.enteredAt, t, pt.lat, pt.lon⟩] := by
  rw [stepFire_found s tid t pt h]
  exact ⟨rfl, rfl⟩

/-- C7 witness: in `sC7s4` (the state of `esC7W` just before its second
firing, see `runC7`) the commit for cell `a` is still in flight, and the
second timer firing for the same cell submits another request on top of
it. -/
theorem fire_always_submits_witness :
    sC7s4.timers.find? (fun q => q.id == 2) = some ptC7 ∧
    sC7s4.inflight.map PendingRequest.cell_id = ["a"] ∧
    (step sC7s4 (Ev.fire 2 3000)).inflight =
      sC7s4.inflight ++ [⟨2, "a", 2000, 3000, 1/2, 1/2⟩] :=
  ⟨by with_unfolding_all rfl,
   by with_unfolding_all rfl,
   by with_unfolding_all exact
      (fire_always_submits sC7s4 2 3000 ptC7 (by with_unfolding_all rfl)).1⟩

/-- C8: pausing cancels any in-flight dwell candidate without committing
it — after `onPauseGame` no timeout is pending, the handle is cleared, no
request has been submitted by the pause, the tracked cell is `none` and
the watch is stopped; resuming only restarts the watch and clears the
status line; and the next located cell after a pause (any cell, in
particular the one tracked before the pause, since the tracked cell is
now `none`) starts a fresh candidate whose timer is armed for the full
`minDwellS * 1000` from the sample's own time — dwell time accrued while
paused is never credited. -/
theorem pause_cancels_resume_fresh_timer :
    (∀ result visits es,
      (step (run (startGame result visits) es) Ev.pause).timers = [] ∧
      (step (run (startGame result visits) es) Ev.pause).app.dwellTimer = none ∧
      (step (run (startGame result visits) es) Ev.pause).submitted =
        (run (startGame result visits) es).submitted ∧
      (step (run (startGame result visits) es) Ev.pause).app.currentCellId = none ∧
      (step (run (startGame result visits) es) Ev.pause).watchActive = false) ∧
    (∀ s, step s Ev.resume =
      { s with watchActive := true, app := { s.app with cellStatus := "" } }) ∧
    (∀ s t la lo ac c, s.timers = [] → s.app.dwellTimer = none →
      s.watchActive = true → s.app.currentCellId = none →
      detectCell la lo s.app.grid = some c →
      (step s (Ev.pos t la lo ac)).timers =
        [⟨s.nextTimerId, c, t, la, lo, t + s.app.minDwellS * 1000⟩] ∧
      (step s (Ev.pos t la lo ac)).app.cellEnteredAt = some t ∧
      (step s (Ev.pos t la lo ac)).app.dwellTimer = some s.nextTimerId) := by
  refine ⟨?_, stepResume_eq, ?_⟩
  · intro result visits es
    have hI := timerInv_run _ es (timerInv_startGame result visits)
    obtain ⟨h1, h2, h3, h4, h5, h6, _⟩ := stepPause_fields (run (startGame result visits) es)
    exact ⟨h1.trans (cdtTimers_of_inv _ hI), h2, h6, h3, h4⟩
  · intro s t la lo ac c ht hd hw hcc hc
    have hne : detectCell la lo s.app.grid ≠ s.app.currentCellId := by
      rw [hc, hcc]
      exact Option.some_ne_none c
    obtain ⟨h1, h2, _, h4, _⟩ := stepPos_change_some s t la lo ac c hw hne hc
    refine ⟨?_, h4, h2⟩
    rw [h1, cdtTimers, hd, ht]
    rfl

/-- C8 witness: pausing while a candidate for cell `a` is pending leaves
no timer and no commit; after resuming, re-entering the same cell `a`
arms a fresh full-length (1000 ms) timer counted from the new sample. -/
theorem pause_cancels_resume_fresh_timer_witness :
    sPauseW.timers = [] ∧
    sPauseW.submitted = s1W.submitted ∧
    sPauseW.watchActive = false ∧
    sResW.watchActive = true ∧
    (step sResW (Ev.pos 2000 (1/2) (1/2) 0)).timers =
      [⟨2, "a", 2000, 1/2, 1/2, 3000⟩] :=
  ⟨(pause_cancels_resume_fresh_timer.1 resW [] [Ev.pos 0 (1/2) (1/2) 0]).1,
   (pause_cancels_resume_fresh_timer.1 resW [] [Ev.pos 0 (1/2) (1/2) 0]).2.2.1,
   (pause_cancels_resume_fresh_timer.1 resW [] [Ev.pos 0 (1/2) (1/2) 0]).2.2.2.2,
   by rw [show sResW = step sPauseW Ev.resume from rfl,
          pause_cancels_resume_fresh_timer.2.1 sPauseW],
   by with_unfolding_all exact
      (pause_cancels_resume_fresh_timer.2.2 sResW 2000 (1/2) (1/2) 0 "a"
        (by with_unfolding_all rfl) (by with_unfolding_all rfl)
        (by with_unfolding_all rfl) (by with_unfolding_all rfl)
        (by with_unfolding_all rfl)).1⟩

/-- C9 counterexample: the claim says a geolocation error stops position
sampling (watch cancelled, no further samples processed). After a GPS
error the watch flag is untouched (the handler never calls `GPS.stop`),
the error is surfaced in the status line, and a subsequent position
sample is still processed — it sets the tracked cell. -/
theorem gps_error_keeps_sampling_cex :
    (run s0W [Ev.gpsError "User denied Geolocation"]).watchActive = true ∧
    (run s0W [Ev.gpsError "User denied Geolocation"]).app.cellStatus =
      "GPS error: User denied Geolocation" ∧
    (run s0W [Ev.gpsError "User denied Geolocation",
      Ev.pos 0 (1/2) (1/2) 0]).app.currentCellId = some "a" :=
  ⟨by with_unfolding_all rfl, by with_unfolding_all rfl,
   by with_unfolding_all rfl⟩

/-- C9 (amended): a geolocation error during gameplay is surfaced to the
player as a `GPS error: ...` status message, and nothing else changes:
the watch is not cancelled, so position sampling continues and later
samples are still processed. -/
theorem gps_error_surfaces_and_keeps_watch (s : Sys) (msg : String)
    (h : s.watchActive = true) :
    step s (Ev.gpsError msg) =
      { s with app := { s.app with cellStatus := "GPS error: " ++ msg } } := by
  simp [step, stepGpsError, h]

/-- C9 witness: the concrete session surfaces the error text and keeps
every other component of its state. -/
theorem gps_error_surfaces_and_keeps_watch_witness :
    s0W.watchActive = true ∧
    step s0W (Ev.gpsError "denied") =
      { s0W with app := { s0W.app with cellStatus := "GPS error: denied" } } :=
  ⟨rfl, gps_error_surfaces_and_keeps_watch s0W "denied" rfl⟩

lemma step_scrub (s : Sys) (e : Ev) : step s (scrubAccuracy e) = step s e := by
  cases e <;> rfl

lemma run_scrub (s : Sys) (es : List Ev) :
    run s (es.map scrubAccuracy) = run s es := by
  induction es generalizing s with
  | nil => rfl
  | cons e es ih =>
    show run (step s (scrubAccuracy e)) (es.map scrubAccuracy) = run (step s e) es
    rw [step_scrub]
    exact ih (step s e)

/-- C10: cell detection and every tracker transition are independent of
the reported GPS accuracy — two event sequences that agree after
scrubbing the accuracy component of position samples (same times,
latitudes, longitudes and other events, arbitrary accuracies) drive a
session to the very same state: same tracker fields, same timers, same
in-flight and submitted commits. -/
theorem accuracy_independence (s : Sys) (es es2 : List Ev)
    (h : es.map scrubAccuracy = es2.map scrubAccuracy) :
    run s es = run s es2 := by
  rw [← run_scrub s es, h, run_scrub]

/-- C10 witness: the two concrete runs differ only in reported
accuracies (5, 12 versus 99, 3) and end in the same state. -/
theorem accuracy_independence_witness :
    esAccA.map scrubAccuracy = esAccB.map scrubAccuracy ∧
    run s0W esAccA = run s0W esAccB :=
  ⟨rfl, accuracy_independence s0W esAccA esAccB rfl⟩
